import Mathlib

/-
Shallow embedding of the PixelForge pixel-processing and layer-stack core.

The filter bank (FilterManager.processImageData and the applyXxx helpers)
operates on flat RGBA byte arrays; we model a buffer as a list of RGBA
pixels together with its width and height.  JavaScript number arithmetic
is modelled exactly with rationals wherever the source cannot produce
Infinity or NaN, and with the four-constructor type `JF` (finite value,
+Infinity, -Infinity, NaN) where it can (the Gaussian-kernel division and
the contrast-factor division).  Writing a number into a
Uint8ClampedArray clamps it to [0, 255] and rounds halves to even; that
conversion is `u8OfQ` below.
-/

namespace PixelForge

/-- One RGBA sample as stored in a Uint8ClampedArray (channel order R,G,B,A). -/
structure RGBA where
  r : ℕ
  g : ℕ
  b : ℕ
  a : ℕ
deriving DecidableEq, Repr

/-- Default sample used for out-of-range reads; the source's clamping makes
it unreachable on well-formed buffers. -/
def pix0 : RGBA := ⟨0, 0, 0, 0⟩

/-- An ImageData value: width, height and the pixel list (row-major, the
flat byte array viewed four bytes at a time). -/
structure Img where
  width : ℕ
  height : ℕ
  pix : List RGBA
deriving DecidableEq, Repr

/-- Round to the nearest integer, ties to even, as the Uint8ClampedArray
conversion prescribes for the fractional part. -/
def roundHalfEven (q : ℚ) : ℤ :=
  let fl := ⌊q⌋
  let fr := q - fl
  if fr < 1/2 then fl
  else if 1/2 < fr then fl + 1
  else if fl % 2 = 0 then fl else fl + 1

/-- Conversion of a finite JS number to a Uint8ClampedArray entry:
clamp to [0,255], round half to even. -/
def u8OfQ (q : ℚ) : ℕ :=
  if q ≤ 0 then 0
  else if 255 ≤ q then 255
  else (roundHalfEven q).toNat

/-- Truncation toward zero, as JS `%` uses for its implicit quotient. -/
def jsTrunc (q : ℚ) : ℤ :=
  if 0 ≤ q then ⌊q⌋ else ⌈q⌉

/-- The JS remainder operator `a % b`: `a - b * trunc (a / b)`; the result
keeps the sign of the dividend `a`. -/
def jsModQ (a b : ℚ) : ℚ :=
  a - b * jsTrunc (a / b)

/-- JS `Math.round`: round half toward positive infinity. -/
def jsRoundQ (q : ℚ) : ℤ :=
  ⌊q + 1/2⌋

/-- Clamp an integer coordinate into [0, n-1], as the filters do with
`Math.max(0, Math.min(n - 1, v))` before sampling. -/
def clampCoord (n : ℕ) (v : ℤ) : ℕ :=
  (max 0 (min ((n : ℤ) - 1) v)).toNat

/-- A JS double restricted to the values this code can produce: an exact
finite value, one of the two infinities, or NaN. -/
inductive JF where
  | num (q : ℚ)
  | posInf
  | negInf
  | nan
deriving DecidableEq, Repr

namespace JF

/-- JS addition on `JF` values. -/
def add : JF → JF → JF
  | nan, _ => nan
  | _, nan => nan
  | num a, num b => num (a + b)
  | posInf, negInf => nan
  | negInf, posInf => nan
  | posInf, _ => posInf
  | _, posInf => posInf
  | negInf, _ => negInf
  | _, negInf => negInf

/-- JS negation on `JF` values. -/
def neg : JF → JF
  | nan => nan
  | posInf => negInf
  | negInf => posInf
  | num a => num (-a)

/-- JS subtraction on `JF` values. -/
def sub (x y : JF) : JF := add x (neg y)

/-- JS multiplication on `JF` values; an infinity times zero is NaN. -/
def mul : JF → JF → JF
  | nan, _ => nan
  | _, nan => nan
  | num a, num b => num (a * b)
  | num a, posInf => if 0 < a then posInf else if a < 0 then negInf else nan
  | num a, negInf => if 0 < a then negInf else if a < 0 then posInf else nan
  | posInf, num b => if 0 < b then posInf else if b < 0 then negInf else nan
  | negInf, num b => if 0 < b then negInf else if b < 0 then posInf else nan
  | posInf, posInf => posInf
  | posInf, negInf => negInf
  | negInf, posInf => negInf
  | negInf, negInf => posInf

/-- JS division on `JF` values; `0/0` is NaN, a nonzero finite value over
zero is a signed infinity (the rational zero stands for JS `+0`). -/
def div : JF → JF → JF
  | nan, _ => nan
  | _, nan => nan
  | num a, num b =>
      if b = 0 then (if a = 0 then nan else if 0 < a then posInf else negInf)
      else num (a / b)
  | num _, posInf => num 0
  | num _, negInf => num 0
  | posInf, num b => if 0 ≤ b then posInf else negInf
  | negInf, num b => if 0 ≤ b then negInf else posInf
  | posInf, _ => nan
  | negInf, _ => nan

/-- JS `Math.min` on `JF` values: NaN-propagating. -/
def jsMin : JF → JF → JF
  | nan, _ => nan
  | _, nan => nan
  | num a, num b => num (min a b)
  | posInf, x => x
  | x, posInf => x
  | negInf, _ => negInf
  | _, negInf => negInf

/-- JS `Math.max` on `JF` values: NaN-propagating. -/
def jsMax : JF → JF → JF
  | nan, _ => nan
  | _, nan => nan
  | num a, num b => num (max a b)
  | negInf, x => x
  | x, negInf => x
  | posInf, _ => posInf
  | _, posInf => posInf

/-- Storing a `JF` value into a Uint8ClampedArray entry: NaN becomes 0,
the infinities clamp to the range ends, finite values go through `u8OfQ`. -/
def toU8 : JF → ℕ
  | nan => 0
  | posInf => 255
  | negInf => 0
  | num q => u8OfQ q

end JF

/-- `Math.exp` on `JF` arguments.  `expVal` is the (strictly positive,
irrational in general) finite-argument approximation, kept abstract
because no claim depends on its values; the special values follow JS:
`exp NaN = NaN`, `exp ∞ = ∞`, `exp (-∞) = 0`. -/
def jexp (expVal : ℚ → ℚ) : JF → JF
  | JF.nan => JF.nan
  | JF.posInf => JF.posInf
  | JF.negInf => JF.num 0
  | JF.num q => JF.num (expVal q)

/-- Per-pixel body of `applyGrayscale`:
`gray = r*0.299 + g*0.587 + b*0.114`, written to all of R,G,B; alpha
untouched.  The write goes through the clamped-array conversion. -/
def grayPixel (p : RGBA) : RGBA :=
  let gray : ℚ := p.r * (299/1000) + p.g * (587/1000) + p.b * (114/1000)
  { r := u8OfQ gray, g := u8OfQ gray, b := u8OfQ gray, a := p.a }

/-- `applyGrayscale` over the pixel list (the `i += 4` loop). -/
def applyGrayscale (d : List RGBA) : List RGBA := d.map grayPixel

/-- Per-pixel body of `applySepia` (fixed matrix, each channel capped at
255 by `Math.min` before the store). -/
def sepiaPixel (p : RGBA) : RGBA :=
  let r : ℚ := p.r
  let g : ℚ := p.g
  let b : ℚ := p.b
  { r := u8OfQ (min 255 (r * (393/1000) + g * (769/1000) + b * (189/1000)))
    g := u8OfQ (min 255 (r * (349/1000) + g * (686/1000) + b * (168/1000)))
    b := u8OfQ (min 255 (r * (272/1000) + g * (534/1000) + b * (131/1000)))
    a := p.a }

/-- `applySepia` over the pixel list. -/
def applySepia (d : List RGBA) : List RGBA := d.map sepiaPixel

/-- Per-pixel body of `applyInvert`: `255 - channel` on R,G,B. -/
def invertPixel (p : RGBA) : RGBA :=
  { r := u8OfQ (255 - (p.r : ℚ))
    g := u8OfQ (255 - (p.g : ℚ))
    b := u8OfQ (255 - (p.b : ℚ))
    a := p.a }

/-- `applyInvert` over the pixel list. -/
def applyInvert (d : List RGBA) : List RGBA := d.map invertPixel

/-- The contrast factor `259*(contrast+255) / (255*(259-contrast))`,
exactly as `applyBrightnessContrast` computes it — on the raw `contrast`
argument, with no clamping, so the divisor is zero at `contrast = 259`
and the JS division then yields +Infinity. -/
def contrastFactor (contrast : ℚ) : JF :=
  JF.div (JF.num (259 * (contrast + 255))) (JF.num (255 * (259 - contrast)))

/-- Per-pixel body of `applyBrightnessContrast`: add
`(brightness/100)*255` to R,G,B, then `factor*(c-128)+128`, then
`Math.max(0, Math.min(255, c))` and the clamped store. -/
def brightnessContrastPixel (brightness contrast : ℚ) (p : RGBA) : RGBA :=
  let brightnessFactor : ℚ := brightness / 100
  let factor : JF := contrastFactor contrast
  let step (c : ℕ) : ℕ :=
    let c0 : JF := JF.num (c + brightnessFactor * 255)
    let c1 : JF := JF.add (JF.mul factor (JF.sub c0 (JF.num 128))) (JF.num 128)
    (JF.jsMax (JF.num 0) (JF.jsMin (JF.num 255) c1)).toU8
  { r := step p.r, g := step p.g, b := step p.b, a := p.a }

/-- `applyBrightnessContrast` over the pixel list. -/
def applyBrightnessContrast (d : List RGBA) (brightness contrast : ℚ) : List RGBA :=
  d.map (brightnessContrastPixel brightness contrast)

/-- The hue-update line of `applyHueSaturation`:
`h = (h + hueShift / (2π)) % 1` with `hueShift = (hue/180)*π`, so the
added fraction is exactly `hue/360`; `%` is the JS remainder `jsModQ`. -/
def shiftedHue (h hue : ℚ) : ℚ :=
  jsModQ (h + hue / 360) 1

/-- Per-pixel body of `applyHueSaturation`: RGB→HSL, hue shift and
saturation scale, sector-based HSL→RGB, `Math.round`, clamped store. -/
def hueSatPixel (hue saturation : ℚ) (p : RGBA) : RGBA :=
  let satFactor : ℚ := 1 + saturation / 100
  let r : ℚ := p.r / 255
  let g : ℚ := p.g / 255
  let b : ℚ := p.b / 255
  let mx : ℚ := max r (max g b)
  let mn : ℚ := min r (min g b)
  let diff : ℚ := mx - mn
  let l : ℚ := (mx + mn) / 2
  let h0 : ℚ :=
    if diff = 0 then 0
    else (if mx = r then (g - b) / diff + (if g < b then 6 else 0)
          else if mx = g then (b - r) / diff + 2
          else (r - g) / diff + 4) / 6
  let s0 : ℚ :=
    if diff = 0 then 0
    else if 1/2 < l then diff / (2 - mx - mn) else diff / (mx + mn)
  let h : ℚ := shiftedHue h0 hue
  let s : ℚ := max 0 (min 1 (s0 * satFactor))
  let c : ℚ := (1 - |2 * l - 1|) * s
  let x : ℚ := c * (1 - |jsModQ (h * 6) 2 - 1|)
  let m : ℚ := l - c / 2
  let hSector : ℤ := ⌊h * 6⌋
  let rgb : ℚ × ℚ × ℚ :=
    if hSector = 0 then (c, x, 0)
    else if hSector = 1 then (x, c, 0)
    else if hSector = 2 then (0, c, x)
    else if hSector = 3 then (0, x, c)
    else if hSector = 4 then (x, 0, c)
    else if hSector = 5 then (c, 0, x)
    else (0, 0, 0)
  { r := u8OfQ ((jsRoundQ ((rgb.1 + m) * 255) : ℤ) : ℚ)
    g := u8OfQ ((jsRoundQ ((rgb.2.1 + m) * 255) : ℤ) : ℚ)
    b := u8OfQ ((jsRoundQ ((rgb.2.2 + m) * 255) : ℤ) : ℚ)
    a := p.a }

/-- `applyHueSaturation` over the pixel list. -/
def applyHueSaturation (d : List RGBA) (hue saturation : ℚ) : List RGBA :=
  d.map (hueSatPixel hue saturation)

/-- `applyNoiseFilter`: one `Math.random()` draw per pixel, modelled by
the stream `rand` indexed by the pixel position; the draw perturbs R,G,B
identically through `Math.max(0, Math.min(255, c + noise))`. -/
def applyNoiseFilter (rand : ℕ → ℚ) (d : List RGBA) (amount : ℚ) (uniform : Bool) :
    List RGBA :=
  let intensity : ℚ := amount / 100 * 255
  d.mapIdx (fun i p =>
    let noise : ℚ :=
      if uniform then (rand i - 1/2) * intensity * 2
      else (rand i * 2 - 1) * intensity
    { r := u8OfQ (max 0 (min 255 (p.r + noise)))
      g := u8OfQ (max 0 (min 255 (p.g + noise)))
      b := u8OfQ (max 0 (min 255 (p.b + noise)))
      a := p.a })

/-- Read the source pixel at row-major position `py*width + px` (both
already clamped by the caller, exactly as in the source). -/
def Img.sample (img : Img) (px py : ℕ) : RGBA :=
  img.pix.getD (py * img.width + px) pix0

/-- `generateGaussianKernel`: side `ceil(radius)*2 + 1`, `sigma = radius/3`,
raw tap `exp(-(x²)/(2σ²))`, then normalization by the running sum.  At
`radius = 0` the exponent is `-0/0 = NaN`, so every tap is NaN. -/
def generateGaussianKernel (expVal : ℚ → ℚ) (radius : ℚ) : List JF :=
  let size : ℕ := ⌈radius⌉.toNat * 2 + 1
  let sigma : ℚ := radius / 3
  let twoSigmaSquare : ℚ := 2 * sigma * sigma
  let center : ℕ := size / 2
  let raw : List JF := (List.range size).map (fun (i : ℕ) =>
    let x : ℚ := ((i : ℤ) : ℚ) - ((center : ℤ) : ℚ)
    jexp expVal (JF.div (JF.num (-(x * x))) (JF.num twoSigmaSquare)))
  let sum : JF := raw.foldl JF.add (JF.num 0)
  raw.map (fun k => JF.div k sum)

/-- Offsets `-half … half` traversed by the blur loops. -/
def blurOffsets (half : ℕ) : List ℤ :=
  (List.range (2 * half + 1)).map (fun (i : ℕ) => (i : ℤ) - (half : ℤ))

/-- One channel accumulation of `applyBlur` at destination `(x,y)`:
`Σ data[idx] * kernel[ky+half]*kernel[kx+half]` with edge-clamped
sampling, in JS-number arithmetic. -/
def blurChannel (img : Img) (kernel : List JF) (x y : ℕ) (ch : RGBA → ℕ) : JF :=
  let half : ℕ := kernel.length / 2
  (blurOffsets half).foldl (fun acc ky =>
    (blurOffsets half).foldl (fun acc kx =>
      let px := clampCoord img.width ((x : ℤ) + kx)
      let py := clampCoord img.height ((y : ℤ) + ky)
      let w := JF.mul (kernel.getD (ky + half).toNat JF.nan)
                      (kernel.getD (kx + half).toNat JF.nan)
      JF.add acc (JF.mul (JF.num (ch (img.sample px py))) w)) acc)
    (JF.num 0)

/-- The per-destination-pixel total weight re-summed by `applyBlur`. -/
def blurTotalWeight (img : Img) (kernel : List JF) (x y : ℕ) : JF :=
  let half : ℕ := kernel.length / 2
  (blurOffsets half).foldl (fun acc (ky : ℤ) =>
    (blurOffsets half).foldl (fun acc (kx : ℤ) =>
      let w := JF.mul (kernel.getD (ky + half).toNat JF.nan)
                      (kernel.getD (kx + half).toNat JF.nan)
      JF.add acc w) acc)
    (JF.num 0)

/-- Destination pixel of `applyBlur`: every channel, alpha included, is
the weighted accumulation divided by the re-summed total weight. -/
def blurPixel (img : Img) (kernel : List JF) (x y : ℕ) : RGBA :=
  let tw := blurTotalWeight img kernel x y
  { r := (JF.div (blurChannel img kernel x y RGBA.r) tw).toU8
    g := (JF.div (blurChannel img kernel x y RGBA.g) tw).toU8
    b := (JF.div (blurChannel img kernel x y RGBA.b) tw).toU8
    a := (JF.div (blurChannel img kernel x y RGBA.a) tw).toU8 }

/-- `applyBlur(imageData, radius)`: generate the Gaussian kernel once and
fill the output row-major, same dimensions. -/
def applyBlur (expVal : ℚ → ℚ) (img : Img) (radius : ℚ) : Img :=
  let kernel := generateGaussianKernel expVal radius
  { width := img.width, height := img.height
    pix := (List.range (img.height * img.width)).map (fun p =>
      blurPixel img kernel (p % img.width) (p / img.width)) }

/-- One channel accumulation of `applyConvolution` at destination `(x,y)`:
`Σ data[idx] * kernel[ky*kernelSize+kx]` with edge-clamped sampling
(integer arithmetic; the data and kernels are integers). -/
def convChannel (img : Img) (kernel : List ℤ) (kernelSize : ℕ) (x y : ℕ)
    (ch : RGBA → ℕ) : ℤ :=
  let half : ℕ := kernelSize / 2
  (List.range kernelSize).foldl (fun acc (ky : ℕ) =>
    (List.range kernelSize).foldl (fun acc (kx : ℕ) =>
      let px := clampCoord img.width ((x : ℤ) + kx - half)
      let py := clampCoord img.height ((y : ℤ) + ky - half)
      acc + (ch (img.sample px py) : ℤ) * kernel.getD (ky * kernelSize + kx) 0)
      acc)
    0

/-- Destination pixel of `applyConvolution`: R,G,B are the clamped
accumulations; alpha is copied from the source pixel at the same
position (`output[outputIdx+3] = data[outputIdx+3]`). -/
def convPixel (img : Img) (kernel : List ℤ) (kernelSize : ℕ) (x y : ℕ) : RGBA :=
  { r := (max 0 (min 255 (convChannel img kernel kernelSize x y RGBA.r))).toNat
    g := (max 0 (min 255 (convChannel img kernel kernelSize x y RGBA.g))).toNat
    b := (max 0 (min 255 (convChannel img kernel kernelSize x y RGBA.b))).toNat
    a := (img.sample x y).a }

/-- `applyConvolution(imageData, kernel, kernelSize)`. -/
def applyConvolution (img : Img) (kernel : List ℤ) (kernelSize : ℕ) : Img :=
  { width := img.width, height := img.height
    pix := (List.range (img.height * img.width)).map (fun p =>
      convPixel img kernel kernelSize (p % img.width) (p / img.width)) }

/-- `applySharpenFilter`: 3×3 kernel `[0,-1,0,-1,5,-1,0,-1,0]`. -/
def applySharpenFilter (img : Img) : Img :=
  applyConvolution img [0, -1, 0, -1, 5, -1, 0, -1, 0] 3

/-- `applyEmbossFilter`: 3×3 kernel `[-2,-1,0,-1,1,1,0,1,2]`. -/
def applyEmbossFilter (img : Img) : Img :=
  applyConvolution img [-2, -1, 0, -1, 1, 1, 0, 1, 2] 3

/-- `applyEdgeDetectFilter`: 3×3 kernel `[0,1,0,1,-4,1,0,1,0]`. -/
def applyEdgeDetectFilter (img : Img) : Img :=
  applyConvolution img [0, 1, 0, 1, -4, 1, 0, 1, 0] 3

/-- Offsets `-radius … radius` traversed by the oil-painting window. -/
def windowOffsets (radius : ℕ) : List ℤ :=
  (List.range (2 * radius + 1)).map (fun (i : ℕ) => (i : ℤ) - (radius : ℤ))

/-- Intensity bucket of one neighborhood sample in
`applyOilPaintingFilter`: `floor(((r+g+b)/3) * (levels-1) / 255)`. -/
def oilIntensity (levels : ℕ) (p : RGBA) : ℕ :=
  (⌊((p.r : ℚ) + p.g + p.b) / 3 * ((levels : ℚ) - 1) / 255⌋).toNat

/-- The `(2*radius+1)²` edge-clamped window samples feeding the
oil-painting histogram for destination `(x,y)`. -/
def oilSamples (img : Img) (radius x y : ℕ) : List RGBA :=
  (windowOffsets radius).flatMap (fun ky =>
    (windowOffsets radius).map (fun kx =>
      img.sample (clampCoord img.width ((x : ℤ) + kx))
                 (clampCoord img.height ((y : ℤ) + ky))))

/-- `intensityCount[i]` after the oil-painting window scan. -/
def intensityCount (img : Img) (radius levels x y : ℕ) (i : ℕ) : ℕ :=
  ((oilSamples img radius x y).filter (fun p => oilIntensity levels p = i)).length

/-- Per-bucket running channel sum (`avgR`/`avgG`/`avgB` before the final
division). -/
def intensitySum (img : Img) (radius levels x y : ℕ) (ch : RGBA → ℕ) (i : ℕ) : ℕ :=
  (((oilSamples img radius x y).filter (fun p => oilIntensity levels p = i)).map ch).sum

/-- The argmax loop of `applyOilPaintingFilter`: `maxIndex` starts at 0
and is replaced while scanning `i = 1 … levels-1` only on a strictly
greater count. -/
def oilMaxIndex (img : Img) (radius levels x y : ℕ) : ℕ :=
  (List.range' 1 (levels - 1)).foldl (fun mi i =>
    if intensityCount img radius levels x y mi < intensityCount img radius levels x y i
    then i else mi) 0

/-- Destination pixel of `applyOilPaintingFilter`: the winning bucket's
channel sums divided by its count; alpha copied from the source pixel.
The division is JS division, NaN (stored as 0) if the count were zero. -/
def oilPixel (img : Img) (radius levels x y : ℕ) : RGBA :=
  let mi := oilMaxIndex img radius levels x y
  let cnt := intensityCount img radius levels x y mi
  { r := (JF.div (JF.num (intensitySum img radius levels x y RGBA.r mi)) (JF.num cnt)).toU8
    g := (JF.div (JF.num (intensitySum img radius levels x y RGBA.g mi)) (JF.num cnt)).toU8
    b := (JF.div (JF.num (intensitySum img radius levels x y RGBA.b mi)) (JF.num cnt)).toU8
    a := (img.sample x y).a }

/-- `applyOilPaintingFilter(imageData, radius, intensityLevels)`. -/
def applyOilPaintingFilter (img : Img) (radius levels : ℕ) : Img :=
  { width := img.width, height := img.height
    pix := (List.range (img.height * img.width)).map (fun p =>
      oilPixel img radius levels (p % img.width) (p / img.width)) }

/-- The option keys `processImageData` reads (absent key = `none`). -/
structure FilterOptions where
  brightness : Option ℚ := none
  contrast : Option ℚ := none
  saturation : Option ℚ := none
  hue : Option ℚ := none
  blur : Option ℚ := none
  amount : Option ℚ := none
  uniform : Option Bool := none
deriving DecidableEq, Repr

/-- The JS falsy-or `options.key || default` on a numeric option: an
absent key and an explicit 0 both fall back to the default. -/
def jsOrNum (o : Option ℚ) (d : ℚ) : ℚ :=
  match o with
  | none => d
  | some v => if v = 0 then d else v

/-- The JS falsy-or `options.key || default` on a boolean option. -/
def jsOrBool (o : Option Bool) (d : Bool) : Bool :=
  match o with
  | none => d
  | some b => b || d

/-- `processImageData(imageData, filterType, options)`: the permissive
switch.  `expVal` abstracts `Math.exp` on finite arguments (see `jexp`)
and `rand` abstracts the `Math.random()` stream of the noise filter.
A `filterType` matching no case leaves the copied data untouched. -/
def processImageData (expVal : ℚ → ℚ) (rand : ℕ → ℚ) (img : Img)
    (filterType : String) (options : FilterOptions) : Img :=
  if filterType = "brightness" then
    { img with pix := (applyBrightnessContrast img.pix
        (jsOrNum options.brightness 0) (jsOrNum options.contrast 0)) }
  else if filterType = "saturation" then
    { img with pix := (applyHueSaturation img.pix
        (jsOrNum options.hue 0) (jsOrNum options.saturation 0)) }
  else if filterType = "blur" then
    applyBlur expVal img (jsOrNum options.blur 5)
  else if filterType = "sharpen" then
    applySharpenFilter img
  else if filterType = "noise" then
    { img with pix := (applyNoiseFilter rand img.pix
        (jsOrNum options.amount 25) (jsOrBool options.uniform false)) }
  else if filterType = "sepia" then
    { img with pix := applySepia img.pix }
  else if filterType = "grayscale" then
    { img with pix := applyGrayscale img.pix }
  else if filterType = "invert" then
    { img with pix := applyInvert img.pix }
  else if filterType = "emboss" then
    applyEmbossFilter img
  else if filterType = "edge-detect" then
    applyEdgeDetectFilter img
  else
    img

/-- A layer: its canvas raster plus the stacking attributes.  `id` is the
host-generated random identifier. -/
structure Layer where
  id : String
  name : String
  canvas : Img
  visible : Bool
  opacity : ℚ
  blendMode : String
  locked : Bool
  isBackground : Bool
  x : ℚ
  y : ℚ
deriving DecidableEq, Repr

/-- A freshly constructed `new Layer({name, width, height})`: the
constructor defaults (visible, opacity 100, blend mode "normal",
unlocked, not background, offset 0) and a blank transparent canvas. -/
def Layer.fresh (freshId name : String) (width height : ℕ) : Layer :=
  { id := freshId, name := name
    canvas := ⟨width, height, List.replicate (width * height) pix0⟩
    visible := true, opacity := 100, blendMode := "normal"
    locked := false, isBackground := false, x := 0, y := 0 }

/-- The `Document` fields the layer-stack operations touch. -/
structure Document where
  id : String
  name : String
  width : ℕ
  height : ℕ
  background : String
  layers : List Layer
  activeLayerIndex : ℤ
  saved : Bool
deriving DecidableEq, Repr

/-- `Array.prototype.findIndex` by layer id: first match or -1. -/
def jsFindIndex (layers : List Layer) (layerId : String) : ℤ :=
  match layers.findIdx? (fun l => l.id == layerId) with
  | some i => (i : ℤ)
  | none => -1

/-- `Document.mergeDown(layerId)`.  `mergeWith bottom top` abstracts the
canvas-2D draw `bottom.mergeWith(top)` (it returns the mutated bottom
layer).  Only entered when the target is found strictly above index 0;
otherwise the document is returned untouched. -/
def mergeDown (mergeWith : Layer → Layer → Layer) (doc : Document)
    (layerId : String) : Document :=
  let layerIndex : ℤ := jsFindIndex doc.layers layerId
  if 0 < layerIndex then
    let i : ℕ := layerIndex.toNat
    let topLayer := doc.layers.getD i (Layer.fresh "" "" 0 0)
    let bottomLayer := doc.layers.getD (i - 1) (Layer.fresh "" "" 0 0)
    let merged := mergeWith bottomLayer topLayer
    { doc with
      layers := doc.layers.take (i - 1) ++ [merged] ++ doc.layers.drop (i + 1)
      activeLayerIndex := layerIndex - 1
      saved := false }
  else
    doc

/-- `Document.flattenImage()`.  `drawLayer acc layer` abstracts one
canvas-2D `drawImage` of a visible layer (with its opacity and blend
mode) onto the accumulating flattened canvas.  Early-returns on stacks
of at most one layer; otherwise the whole stack is replaced by the one
new "Flattened" layer and the active index reset to 0. -/
def flattenImage (drawLayer : Img → Layer → Img) (freshId : String)
    (doc : Document) : Document :=
  if doc.layers.length ≤ 1 then doc
  else
    let base := Layer.fresh freshId "Flattened" doc.width doc.height
    let flattened : Layer :=
      { base with canvas := doc.layers.foldl (fun acc layer =>
          if layer.visible then drawLayer acc layer else acc) base.canvas }
    { doc with layers := [flattened], activeLayerIndex := 0, saved := false }

lemma u8OfQ_le_255 (q : ℚ) : u8OfQ q ≤ 255 := by
  unfold u8OfQ
  split_ifs with h1 h2
  · omega
  · omega
  · have hfl : ⌊q⌋ < 255 := Int.floor_lt.mpr (by push_cast; linarith)
    have hr : roundHalfEven q ≤ ⌊q⌋ + 1 := by
      unfold roundHalfEven
      dsimp only
      split_ifs <;> omega
    exact Int.toNat_le.mpr (by omega)

lemma u8OfQ_natCast (n : ℕ) (h : n ≤ 255) : u8OfQ (n : ℚ) = n := by
  unfold u8OfQ
  split_ifs with h1 h2
  · have : n = 0 := by exact_mod_cast le_antisymm h1 (by positivity)
    omega
  · have : (255 : ℚ) ≤ n := h2
    have : 255 ≤ n := by exact_mod_cast this
    omega
  · have hr : roundHalfEven (n : ℚ) = (n : ℤ) := by
      unfold roundHalfEven
      dsimp only
      rw [Int.floor_natCast]
      have h0 : (n : ℚ) - ((n : ℤ) : ℚ) = 0 := by push_cast; ring
      rw [h0]
      norm_num
    rw [hr]
    exact Int.toNat_natCast n

lemma grayPixel_idem (p : RGBA) : grayPixel (grayPixel p) = grayPixel p := by
  unfold grayPixel
  have hv : ∀ v : ℕ,
      (v : ℚ) * (299/1000) + (v : ℚ) * (587/1000) + (v : ℚ) * (114/1000) = (v : ℚ) := by
    intro v; ring
  simp only [hv, u8OfQ_natCast _ (u8OfQ_le_255 _)]

/-- C7: grayscale is idempotent.  The second pass recomputes the luma of
an already-gray pixel; the weights 0.299+0.587+0.114 sum to 1 exactly,
so the gray byte maps to itself and the buffer is a fixed point. -/
theorem C7_grayscale_idempotent (d : List RGBA) :
    applyGrayscale (applyGrayscale d) = applyGrayscale d := by
  unfold applyGrayscale
  rw [List.map_map]
  exact List.map_congr_left (fun p _ => grayPixel_idem p)

/-- C9: in the dispatch, an explicit 0 is indistinguishable from an
absent key because defaults go through the falsy `||`: blur 0 runs the
default radius 5 and noise amount 0 runs the default amount 25. -/
theorem C9_zero_option_uses_default (expVal : ℚ → ℚ) (rand : ℕ → ℚ) (img : Img) :
    processImageData expVal rand img "blur" { blur := some 0 } =
      processImageData expVal rand img "blur" {} ∧
    processImageData expVal rand img "blur" { blur := some 0 } =
      applyBlur expVal img 5 ∧
    processImageData expVal rand img "noise" { amount := some 0 } =
      processImageData expVal rand img "noise" {} ∧
    processImageData expVal rand img "noise" { amount := some 0 } =
      { img with pix := applyNoiseFilter rand img.pix 25 false } := by
  refine ⟨?_, ?_, ?_, ?_⟩ <;> simp [processImageData, jsOrNum, jsOrBool]

/-- C1 (code slip): Gaussian blur with radius 0 is NOT the identity.
With radius 0 the kernel side is 1 but `sigma = 0`, so the single tap is
`exp(-0/0) = exp(NaN) = NaN`; normalization and accumulation stay NaN
and every stored channel clamps to 0: the output is the zero image, for
every finite-argument interpretation `expVal` of `Math.exp`.  Shown on
the 1×1 buffer with pixel (255,0,0,255). -/
theorem C1_blur_radius_zero_zeroes (expVal : ℚ → ℚ) :
    applyBlur expVal ⟨1, 1, [⟨255, 0, 0, 255⟩]⟩ 0 = ⟨1, 1, [⟨0, 0, 0, 0⟩]⟩ ∧
    (⟨1, 1, [⟨255, 0, 0, 255⟩]⟩ : Img) ≠ ⟨1, 1, [⟨0, 0, 0, 0⟩]⟩ := by
  constructor
  · simp only [applyBlur, generateGaussianKernel, blurPixel, blurChannel,
      blurTotalWeight, blurOffsets, jexp, JF.div, JF.add, JF.mul, JF.toU8,
      Img.sample, clampCoord, pix0]
    norm_num [List.range_succ, JF.add, JF.mul, JF.div, JF.toU8, jexp]
  · decide

lemma ceil_eq_neg_floor_neg (a : ℚ) : ⌈a⌉ = -⌊-a⌋ := by
  rw [Int.floor_neg, neg_neg]

/-- C2 fails as stated: the shifted hue is reduced with the JS `%`
remainder, which keeps the sign of the dividend.  For a red pixel
(hue fraction 0) and hue parameter -180 the shifted hue is -1/2, not in
[0,1); the sector switch then matches no case and the pixel collapses to
(0,0,0). -/
theorem C2_hue_not_wrapped_counterexample :
    shiftedHue 0 (-180) = -(1/2) ∧ shiftedHue 0 (-180) < 0 ∧
    hueSatPixel (-180) 0 ⟨255, 0, 0, 255⟩ = ⟨0, 0, 0, 255⟩ := by
  refine ⟨?_, ?_, ?_⟩
  · norm_num [shiftedHue, jsModQ, jsTrunc, ceil_eq_neg_floor_neg]
  · norm_num [shiftedHue, jsModQ, jsTrunc, ceil_eq_neg_floor_neg]
  · norm_num [hueSatPixel, shiftedHue, jsModQ, jsTrunc, jsRoundQ, u8OfQ,
      roundHalfEven, ceil_eq_neg_floor_neg]

/-- C2 amended: the shifted hue `(h + hue/360) % 1` lands in the open
interval (-1,1); it lies in [0,1) exactly when the pre-remainder value
`h + hue/360` is nonnegative (in particular for every nonnegative hue
parameter), and stays negative — unwrapped — when that value is
negative, which negative hue parameters can produce. -/
theorem C2_hue_wrap_amended (h0 hue : ℚ) (hh0 : 0 ≤ h0) (hh1 : h0 < 1)
    (hlo : -180 ≤ hue) (hhi : hue ≤ 180) :
    (-1 < shiftedHue h0 hue ∧ shiftedHue h0 hue < 1) ∧
    (0 ≤ h0 + hue / 360 → 0 ≤ shiftedHue h0 hue ∧ shiftedHue h0 hue < 1) ∧
    (h0 + hue / 360 < 0 → shiftedHue h0 hue < 0) := by
  have hmod : shiftedHue h0 hue =
      (h0 + hue / 360) - ((jsTrunc (h0 + hue / 360) : ℤ) : ℚ) := by
    unfold shiftedHue jsModQ
    rw [div_one, one_mul]
  have htlo : -(1/2) ≤ h0 + hue / 360 := by linarith
  have hthi : h0 + hue / 360 < 3/2 := by linarith
  by_cases hc : 0 ≤ h0 + hue / 360
  · have htr : jsTrunc (h0 + hue / 360) = ⌊h0 + hue / 360⌋ := by
      unfold jsTrunc; rw [if_pos hc]
    have h1 : ((⌊h0 + hue / 360⌋ : ℤ) : ℚ) ≤ h0 + hue / 360 :=
      Int.floor_le _
    have h2 : h0 + hue / 360 < ⌊h0 + hue / 360⌋ + 1 :=
      Int.lt_floor_add_one _
    rw [hmod, htr]
    refine ⟨⟨by linarith, by linarith⟩, fun _ => ⟨by linarith, by linarith⟩,
      fun hneg => absurd hneg (not_lt.mpr hc)⟩
  · push_neg at hc
    have htr : jsTrunc (h0 + hue / 360) = ⌈h0 + hue / 360⌉ := by
      unfold jsTrunc; rw [if_neg (not_le.mpr hc)]
    have hceil : ⌈h0 + hue / 360⌉ = 0 := by
      have hle : ⌈h0 + hue / 360⌉ ≤ 0 := Int.ceil_le.mpr (by exact_mod_cast hc.le)
      have hgt : (-1 : ℤ) < ⌈h0 + hue / 360⌉ := Int.lt_ceil.mpr (by push_cast; linarith)
      omega
    rw [hmod, htr, hceil]
    push_cast
    refine ⟨⟨by linarith, by linarith⟩,
      fun hpos => absurd hpos (not_le.mpr (by linarith)), fun _ => by linarith⟩

/-- Witness for the amended C2 at h0 = 1/2, hue = 90. -/
theorem C2_hue_wrap_amended_witness :
    (-1 < shiftedHue (1/2) 90 ∧ shiftedHue (1/2) 90 < 1) ∧
    (0 ≤ (1/2 : ℚ) + 90 / 360 → 0 ≤ shiftedHue (1/2) 90 ∧ shiftedHue (1/2) 90 < 1) ∧
    ((1/2 : ℚ) + 90 / 360 < 0 → shiftedHue (1/2) 90 < 0) :=
  C2_hue_wrap_amended (1/2) 90 (by norm_num) (by norm_num) (by norm_num) (by norm_num)

/-- C3 fails as stated: `applyBrightnessContrast` never clamps or
restricts its contrast input.  At contrast = 259 the divisor
`255*(259-contrast)` is zero and the factor is evaluated anyway (to
+Infinity), and an unclamped contrast of 200 acts differently from the
claimed clamp target 100. -/
theorem C3_contrast_not_clamped_counterexample :
    255 * (259 - (259 : ℚ)) = 0 ∧ contrastFactor 259 = JF.posInf ∧
    brightnessContrastPixel 0 259 ⟨128, 128, 128, 255⟩ = ⟨0, 0, 0, 255⟩ ∧
    brightnessContrastPixel 0 200 ⟨100, 100, 100, 255⟩ ≠
      brightnessContrastPixel 0 100 ⟨100, 100, 100, 255⟩ := by
  refine ⟨by norm_num, ?_, ?_, ?_⟩
  · norm_num [contrastFactor, JF.div]
  · norm_num [brightnessContrastPixel, contrastFactor, JF.div, JF.mul, JF.add,
      JF.sub, JF.neg, JF.jsMax, JF.jsMin, JF.toU8, u8OfQ, roundHalfEven]
  · norm_num [brightnessContrastPixel, contrastFactor, JF.div, JF.mul, JF.add,
      JF.sub, JF.neg, JF.jsMax, JF.jsMin, JF.toU8, u8OfQ, roundHalfEven,
      Int.toNat_ofNat]
    omega

/-- C3 amended: the formula is evaluated on the raw contrast value; the
divisor is nonzero — and the factor an ordinary finite value — exactly
when the caller keeps contrast in the documented [-100,100] range (the
UI slider does; the function itself rejects nothing). -/
theorem C3_contrast_formula_amended (c : ℚ) (h1 : -100 ≤ c) (h2 : c ≤ 100) :
    255 * (259 - c) ≠ 0 ∧
    contrastFactor c = JF.num (259 * (c + 255) / (255 * (259 - c))) := by
  have hpos : 0 < 255 * (259 - c) := by nlinarith
  refine ⟨ne_of_gt hpos, ?_⟩
  simp only [contrastFactor, JF.div]
  rw [if_neg (ne_of_gt hpos)]

/-- Witness for the amended C3 at contrast = 50. -/
theorem C3_contrast_formula_amended_witness :
    255 * (259 - (50 : ℚ)) ≠ 0 ∧
    contrastFactor 50 = JF.num (259 * ((50 : ℚ) + 255) / (255 * (259 - 50))) :=
  C3_contrast_formula_amended 50 (by norm_num) (by norm_num)

/-- C4: a filterType matching none of the dispatched cases leaves the
image untouched — same width, same height, same pixels — and raises no
error (the function is total). -/
theorem C4_unknown_filter_noop (expVal : ℚ → ℚ) (rand : ℕ → ℚ) (img : Img)
    (filterType : String) (options : FilterOptions)
    (h : filterType ∉ (["brightness", "saturation", "blur", "sharpen", "noise",
      "sepia", "grayscale", "invert", "emboss", "edge-detect"] : List String)) :
    processImageData expVal rand img filterType options = img := by
  simp only [List.mem_cons, List.mem_singleton, not_or] at h
  obtain ⟨h1, h2, h3, h4, h5, h6, h7, h8, h9, h10, -⟩ := h
  unfold processImageData
  rw [if_neg h1, if_neg h2, if_neg h3, if_neg h4, if_neg h5, if_neg h6,
    if_neg h7, if_neg h8, if_neg h9, if_neg h10]

/-- Witness for C4 at the undispatched filterType "vintage". -/
theorem C4_unknown_filter_noop_witness :
    processImageData (fun q => q) (fun _ => 0) ⟨1, 1, [⟨1, 2, 3, 4⟩]⟩
      "vintage" {} = ⟨1, 1, [⟨1, 2, 3, 4⟩]⟩ :=
  C4_unknown_filter_noop (fun q => q) (fun _ => 0) ⟨1, 1, [⟨1, 2, 3, 4⟩]⟩
    "vintage" {} (by decide)

/-- C5: `mergeDown` with the id of the bottom-most layer finds index 0,
fails the `layerIndex > 0` guard and returns the document completely
unchanged — layer list, pixel contents, active index and saved flag. -/
theorem C5_mergeDown_bottom_noop (mergeWith : Layer → Layer → Layer)
    (doc : Document) (layerId : String) (l : Layer) (rest : List Layer)
    (hl : doc.layers = l :: rest) (hid : l.id = layerId) :
    mergeDown mergeWith doc layerId = doc := by
  have hidx : jsFindIndex doc.layers layerId = 0 := by
    unfold jsFindIndex
    rw [hl]
    rw [List.findIdx?_cons]
    simp [hid]
  unfold mergeDown
  rw [hidx]
  norm_num

/-- Witness for C5 on a concrete two-layer document merged at the bottom
layer's id. -/
theorem C5_mergeDown_bottom_noop_witness :
    mergeDown (fun bot _ => bot)
      ⟨"d", "doc", 2, 2, "white",
        [Layer.fresh "a" "Background" 2 2, Layer.fresh "b" "Layer 1" 2 2], 1, true⟩
      "a" =
      ⟨"d", "doc", 2, 2, "white",
        [Layer.fresh "a" "Background" 2 2, Layer.fresh "b" "Layer 1" 2 2], 1, true⟩ :=
  C5_mergeDown_bottom_noop (fun bot _ => bot) _ "a" (Layer.fresh "a" "Background" 2 2)
    [Layer.fresh "b" "Layer 1" 2 2] rfl rfl

/-- C6: on a stack of at least two layers, `flattenImage` replaces the
whole stack by exactly one new layer named "Flattened" and resets the
active index to 0. -/
theorem C6_flatten_single_layer (drawLayer : Img → Layer → Img)
    (freshId : String) (doc : Document) (h : 2 ≤ doc.layers.length) :
    (flattenImage drawLayer freshId doc).layers.length = 1 ∧
    ((flattenImage drawLayer freshId doc).layers.headD
        (Layer.fresh "" "" 0 0)).name = "Flattened" ∧
    (flattenImage drawLayer freshId doc).activeLayerIndex = 0 := by
  unfold flattenImage
  rw [if_neg (by omega)]
  exact ⟨rfl, rfl, rfl⟩

/-- Witness for C6 on a concrete three-layer document. -/
theorem C6_flatten_single_layer_witness :
    (flattenImage (fun acc _ => acc) "f"
        ⟨"d", "doc", 1, 1, "white",
          [Layer.fresh "a" "Background" 1 1, Layer.fresh "b" "Layer 1" 1 1,
            Layer.fresh "c" "Layer 2" 1 1], 2, true⟩).layers.length = 1 ∧
    ((flattenImage (fun acc _ => acc) "f"
        ⟨"d", "doc", 1, 1, "white",
          [Layer.fresh "a" "Background" 1 1, Layer.fresh "b" "Layer 1" 1 1,
            Layer.fresh "c" "Layer 2" 1 1], 2, true⟩).layers.headD
        (Layer.fresh "" "" 0 0)).name = "Flattened" ∧
    (flattenImage (fun acc _ => acc) "f"
        ⟨"d", "doc", 1, 1, "white",
          [Layer.fresh "a" "Background" 1 1, Layer.fresh "b" "Layer 1" 1 1,
            Layer.fresh "c" "Layer 2" 1 1], 2, true⟩).activeLayerIndex = 0 :=
  C6_flatten_single_layer (fun acc _ => acc) "f" _ (by decide)

lemma rangeMap_getD (f : ℕ → RGBA) (n p : ℕ) (hp : p < n) (d : RGBA) :
    ((List.range n).map f).getD p d = f p := by
  rw [List.getD_eq_getElem _ _ (by simpa using hp)]
  simp

lemma div_mul_add_mod (p w : ℕ) : p / w * w + p % w = p := by
  rw [Nat.mul_comm]
  exact Nat.div_add_mod p w

lemma applyConvolution_alpha (img : Img) (kernel : List ℤ) (kernelSize : ℕ)
    (p : ℕ) (hp : p < img.height * img.width) :
    ((applyConvolution img kernel kernelSize).pix.getD p pix0).a =
      (img.pix.getD p pix0).a := by
  unfold applyConvolution
  dsimp only
  rw [rangeMap_getD _ _ p hp]
  unfold convPixel Img.sample
  dsimp only
  rw [div_mul_add_mod p img.width]

/-- C8: the sharpen, emboss and edge-detect convolutions copy the source
alpha of the same pixel into the output; only R,G,B are recomputed. -/
theorem C8_convolutions_keep_alpha (img : Img) (p : ℕ)
    (hp : p < img.height * img.width) :
    ((applySharpenFilter img).pix.getD p pix0).a = (img.pix.getD p pix0).a ∧
    ((applyEmbossFilter img).pix.getD p pix0).a = (img.pix.getD p pix0).a ∧
    ((applyEdgeDetectFilter img).pix.getD p pix0).a = (img.pix.getD p pix0).a := by
  refine ⟨?_, ?_, ?_⟩
  · simpa only [applySharpenFilter] using
      applyConvolution_alpha img [0, -1, 0, -1, 5, -1, 0, -1, 0] 3 p hp
  · simpa only [applyEmbossFilter] using
      applyConvolution_alpha img [-2, -1, 0, -1, 1, 1, 0, 1, 2] 3 p hp
  · simpa only [applyEdgeDetectFilter] using
      applyConvolution_alpha img [0, 1, 0, 1, -4, 1, 0, 1, 0] 3 p hp

/-- Witness for C8 on a concrete 2×1 buffer at pixel index 1. -/
theorem C8_convolutions_keep_alpha_witness :
    ((applySharpenFilter ⟨2, 1, [⟨10, 20, 30, 40⟩, ⟨50, 60, 70, 80⟩]⟩).pix.getD 1 pix0).a =
      (((⟨2, 1, [⟨10, 20, 30, 40⟩, ⟨50, 60, 70, 80⟩]⟩ : Img)).pix.getD 1 pix0).a ∧
    ((applyEmbossFilter ⟨2, 1, [⟨10, 20, 30, 40⟩, ⟨50, 60, 70, 80⟩]⟩).pix.getD 1 pix0).a =
      (((⟨2, 1, [⟨10, 20, 30, 40⟩, ⟨50, 60, 70, 80⟩]⟩ : Img)).pix.getD 1 pix0).a ∧
    ((applyEdgeDetectFilter ⟨2, 1, [⟨10, 20, 30, 40⟩, ⟨50, 60, 70, 80⟩]⟩).pix.getD 1 pix0).a =
      (((⟨2, 1, [⟨10, 20, 30, 40⟩, ⟨50, 60, 70, 80⟩]⟩ : Img)).pix.getD 1 pix0).a :=
  C8_convolutions_keep_alpha ⟨2, 1, [⟨10, 20, 30, 40⟩, ⟨50, 60, 70, 80⟩]⟩ 1 (by decide)

lemma argmaxFold_spec (f : ℕ → ℕ) (l : List ℕ) (m0 : ℕ) :
    f m0 ≤ f (l.foldl (fun mi i => if f mi < f i then i else mi) m0) ∧
    ∀ i ∈ l, f i ≤ f (l.foldl (fun mi i => if f mi < f i then i else mi) m0) := by
  induction l generalizing m0 with
  | nil => simp
  | cons a t ih =>
    simp only [List.foldl_cons, List.mem_cons]
    have hstep : f m0 ≤ f (if f m0 < f a then a else m0) ∧
        f a ≤ f (if f m0 < f a then a else m0) := by
      split_ifs with hfa
      · exact ⟨le_of_lt hfa, le_refl _⟩
      · exact ⟨le_refl _, not_lt.mp hfa⟩
    refine ⟨le_trans hstep.1 (ih _).1, ?_⟩
    intro i hi
    rcases hi with rfl | hi
    · exact le_trans hstep.2 (ih _).1
    · exact (ih _).2 i hi

lemma argmaxFold_mem (f : ℕ → ℕ) (l : List ℕ) (m0 : ℕ) :
    l.foldl (fun mi i => if f mi < f i then i else mi) m0 ∈ m0 :: l := by
  induction l generalizing m0 with
  | nil => simp
  | cons a t ih =>
    simp only [List.foldl_cons]
    have hm := ih (if f m0 < f a then a else m0)
    rcases List.mem_cons.mp hm with h | h
    · rw [h]
      split_ifs
      · simp
      · simp
    · simp [h]

lemma exists_mem_oilSamples (img : Img) (radius x y : ℕ) :
    ∃ s, s ∈ oilSamples img radius x y := by
  have hoff : -(radius : ℤ) ∈ windowOffsets radius := by
    unfold windowOffsets
    simp only [List.mem_map, List.mem_range]
    refine ⟨0, ?_, ?_⟩
    · omega
    · simp
  exact ⟨_, List.mem_flatMap.mpr ⟨_, hoff, List.mem_map.mpr ⟨_, hoff, rfl⟩⟩⟩

lemma sample_channels_le (img : Img)
    (hb : ∀ p ∈ img.pix, p.r ≤ 255 ∧ p.g ≤ 255 ∧ p.b ≤ 255) (px py : ℕ) :
    (img.sample px py).r ≤ 255 ∧ (img.sample px py).g ≤ 255 ∧
      (img.sample px py).b ≤ 255 := by
  unfold Img.sample
  by_cases h : py * img.width + px < img.pix.length
  · rw [List.getD_eq_getElem _ _ h]
    exact hb _ (List.getElem_mem h)
  · rw [List.getD_eq_default _ _ (le_of_not_lt h)]
    exact ⟨by norm_num [pix0], by norm_num [pix0], by norm_num [pix0]⟩

lemma oilSamples_channels_le (img : Img) (radius x y : ℕ)
    (hb : ∀ p ∈ img.pix, p.r ≤ 255 ∧ p.g ≤ 255 ∧ p.b ≤ 255) :
    ∀ s ∈ oilSamples img radius x y, s.r ≤ 255 ∧ s.g ≤ 255 ∧ s.b ≤ 255 := by
  intro s hs
  obtain ⟨ky, -, hs1⟩ := List.mem_flatMap.mp hs
  obtain ⟨kx, -, rfl⟩ := List.mem_map.mp hs1
  exact sample_channels_le img hb _ _

lemma oilIntensity_lt (levels : ℕ) (hl : 1 ≤ levels) (p : RGBA)
    (hr : p.r ≤ 255) (hg : p.g ≤ 255) (hbb : p.b ≤ 255) :
    oilIntensity levels p < levels := by
  unfold oilIntensity
  have hr' : (p.r : ℚ) ≤ 255 := by exact_mod_cast hr
  have hg' : (p.g : ℚ) ≤ 255 := by exact_mod_cast hg
  have hb' : (p.b : ℚ) ≤ 255 := by exact_mod_cast hbb
  have hl' : (1 : ℚ) ≤ (levels : ℚ) := by exact_mod_cast hl
  have hub : ((p.r : ℚ) + p.g + p.b) / 3 * ((levels : ℚ) - 1) / 255 ≤
      (levels : ℚ) - 1 := by
    have h0r : (0 : ℚ) ≤ (p.r : ℚ) := by positivity
    have h0g : (0 : ℚ) ≤ (p.g : ℚ) := by positivity
    have h0b : (0 : ℚ) ≤ (p.b : ℚ) := by positivity
    nlinarith
  have hfl : ⌊((p.r : ℚ) + p.g + p.b) / 3 * ((levels : ℚ) - 1) / 255⌋ <
      (levels : ℤ) := Int.floor_lt.mpr (by push_cast; linarith)
  omega

/-- C10: the argmax intensity bucket of the oil-painting window always
has a strictly positive count, so the final per-channel division never
divides by zero, and the selected bucket index is itself in range. -/
theorem C10_oil_argmax_count_pos (img : Img) (radius levels x y : ℕ)
    (hw : 0 < img.width) (hh : 0 < img.height)
    (hb : ∀ p ∈ img.pix, p.r ≤ 255 ∧ p.g ≤ 255 ∧ p.b ≤ 255)
    (hl : 1 ≤ levels) :
    oilMaxIndex img radius levels x y < levels ∧
    1 ≤ intensityCount img radius levels x y (oilMaxIndex img radius levels x y) := by
  obtain ⟨s0, hs0⟩ := exists_mem_oilSamples img radius x y
  have hch := oilSamples_channels_le img radius x y hb s0 hs0
  have hb0 : oilIntensity levels s0 < levels :=
    oilIntensity_lt levels hl s0 hch.1 hch.2.1 hch.2.2
  have hcount : 1 ≤ intensityCount img radius levels x y (oilIntensity levels s0) := by
    unfold intensityCount
    have hmem : s0 ∈ (oilSamples img radius x y).filter
        (fun p => oilIntensity levels p = oilIntensity levels s0) :=
      List.mem_filter.mpr ⟨hs0, by simp⟩
    exact List.length_pos.mpr (List.ne_nil_of_mem hmem)
  have hspec := argmaxFold_spec (intensityCount img radius levels x y)
    (List.range' 1 (levels - 1)) 0
  have hmem := argmaxFold_mem (intensityCount img radius levels x y)
    (List.range' 1 (levels - 1)) 0
  constructor
  · unfold oilMaxIndex
    rcases List.mem_cons.mp hmem with h | h
    · rw [h]; omega
    · obtain ⟨i, hi, heq⟩ := List.mem_range'.mp h
      omega
  · by_cases hz : oilIntensity levels s0 = 0
    · rw [hz] at hcount
      unfold oilMaxIndex
      exact le_trans hcount hspec.1
    · have hin : oilIntensity levels s0 ∈ List.range' 1 (levels - 1) :=
        List.mem_range'.mpr ⟨oilIntensity levels s0 - 1, by omega, by omega⟩
      unfold oilMaxIndex
      exact le_trans hcount (hspec.2 _ hin)

/-- Witness for C10 on a concrete 1×1 buffer, radius 1, 2 levels. -/
theorem C10_oil_argmax_count_pos_witness :
    oilMaxIndex ⟨1, 1, [⟨10, 20, 30, 255⟩]⟩ 1 2 0 0 < 2 ∧
    1 ≤ intensityCount ⟨1, 1, [⟨10, 20, 30, 255⟩]⟩ 1 2 0 0
        (oilMaxIndex ⟨1, 1, [⟨10, 20, 30, 255⟩]⟩ 1 2 0 0) :=
  C10_oil_argmax_count_pos ⟨1, 1, [⟨10, 20, 30, 255⟩]⟩ 1 2 0 0
    (by decide) (by decide) (by decide) (by decide)

end PixelForge
